import Mathlib

set_option maxRecDepth 16384

/-
Verification of the gredl_server file-browser (src/main.rs) against its
natural-language specification.

Shallow embedding conventions:
* Rust `String`/`&str` values are embedded as `List Char` (Unicode scalar
  values); `String::len` (a byte count) is embedded as the sum of the UTF-8
  sizes of the characters (`byteLen`).
* `std::path::PathBuf` is embedded as `PathV`: an absolute-flag plus the list
  of normal components, with `join` / `strip_prefix("/")` / `parent` /
  `file_name` following the documented `std::path` semantics.
* fallible operations (`fs::metadata`, `read_dir`, `entry.metadata()`,
  `metadata.modified()`) are embedded as `Option`-valued inputs; a Rust panic
  (`.unwrap()` on an `Err`/`None`, or an out-of-bounds / non-char-boundary
  string slice) is embedded as the result `none`.
* `metadata.modified()` yields, when available, the already-formatted local
  timestamp string (`chrono`'s `%Y-%m-%d %H:%M:%S` rendering is an external,
  deterministic function of the timestamp, so we carry its output).
* the `humansize` crate's `format_size(len, BINARY)` is modelled by
  `formatSize`; no theorem depends on its exact digit output, only on it
  being a function of the length.
-/

/-! ### Basic string helpers -/

/-- Abbreviation: the character list of a Lean string literal. -/
def str (s : String) : List Char := s.data

/-- Embeds Rust `String::len`: the length in UTF-8 bytes (not characters). -/
def byteLen (l : List Char) : Nat := l.foldr (fun c n => c.utf8Size + n) 0

/-- Decimal digit character (used to embed `format!("{}", n)` for `usize`). -/
def digChar (d : Nat) : Char := Char.ofNat (48 + d)

/-- Fuel-driven big-endian decimal rendering; fuel `n + 1` always suffices. -/
def natToDecGo : Nat → Nat → List Char → List Char
  | 0, _, acc => acc
  | fuel + 1, n, acc =>
    if n < 10 then digChar n :: acc
    else natToDecGo fuel (n / 10) (digChar (n % 10) :: acc)

/-- Embeds the `Display` rendering of a Rust `usize` (decimal, no sign). -/
def natToDec (n : Nat) : List Char := natToDecGo (n + 1) n []

/-! ### UTF-8 encoding and lossy decoding

Embeds the byte-level view of Rust strings: `as_bytes` (`utf8Encode`) and
`String::from_utf8_lossy` / `decode_utf8_lossy` (`utf8DecodeLossy`, which
replaces invalid sequences with U+FFFD). -/

/-- UTF-8 encoding of one Unicode scalar value. -/
def utf8EncodeChar (c : Char) : List Nat :=
  let n := c.toNat
  if n < 128 then [n]
  else if n < 2048 then [192 + n / 64, 128 + n % 64]
  else if n < 65536 then [224 + n / 4096, 128 + (n / 64) % 64, 128 + n % 64]
  else [240 + n / 262144, 128 + (n / 4096) % 64, 128 + (n / 64) % 64, 128 + n % 64]

/-- UTF-8 encoding of a string (Rust `str::as_bytes`). -/
def utf8Encode (l : List Char) : List Nat :=
  l.foldr (fun c acc => utf8EncodeChar c ++ acc) []

/-- Is `b` a UTF-8 continuation byte? -/
def isContByte (b : Nat) : Bool := 128 ≤ b && b < 192

/-- The replacement character U+FFFD. -/
def replChar : Char := Char.ofNat 65533

/-- One step of lossy UTF-8 decoding, fuel-driven (fuel ≥ length suffices;
each step consumes at least one byte). Invalid bytes decode to U+FFFD. -/
def utf8DecodeGo : Nat → List Nat → List Char
  | 0, _ => []
  | _ + 1, [] => []
  | fuel + 1, b :: rest =>
    if b < 128 then Char.ofNat b :: utf8DecodeGo fuel rest
    else if 194 ≤ b && b ≤ 223 then
      match rest with
      | b1 :: rest1 =>
        if isContByte b1 then
          Char.ofNat ((b - 192) * 64 + (b1 - 128)) :: utf8DecodeGo fuel rest1
        else replChar :: utf8DecodeGo fuel rest
      | [] => [replChar]
    else if 224 ≤ b && b ≤ 239 then
      match rest with
      | b1 :: b2 :: rest2 =>
        if isContByte b1 && isContByte b2 then
          let n := (b - 224) * 4096 + (b1 - 128) * 64 + (b2 - 128)
          if 2048 ≤ n && (n < 55296 || 57344 ≤ n) then
            Char.ofNat n :: utf8DecodeGo fuel rest2
          else replChar :: utf8DecodeGo fuel rest
        else replChar :: utf8DecodeGo fuel rest
      | _ => [replChar]
    else if 240 ≤ b && b ≤ 244 then
      match rest with
      | b1 :: b2 :: b3 :: rest3 =>
        if isContByte b1 && isContByte b2 && isContByte b3 then
          let n := (b - 240) * 262144 + (b1 - 128) * 4096 + (b2 - 128) * 64 + (b3 - 128)
          if 65536 ≤ n && n < 1114112 then
            Char.ofNat n :: utf8DecodeGo fuel rest3
          else replChar :: utf8DecodeGo fuel rest
        else replChar :: utf8DecodeGo fuel rest
      | _ => [replChar]
    else replChar :: utf8DecodeGo fuel rest

/-- Lossy UTF-8 decoding of a byte sequence (Rust `String::from_utf8_lossy`).
-/
def utf8DecodeLossy (bs : List Nat) : List Char := utf8DecodeGo bs.length bs

/-! ### Percent-encoding (the `percent_encoding` crate) -/

/-- Is `b` the code of an ASCII hex digit? -/
def isHexB (b : Nat) : Bool :=
  (48 ≤ b && b ≤ 57) || (97 ≤ b && b ≤ 102) || (65 ≤ b && b ≤ 70)

/-- Value of an ASCII hex digit code. -/
def hexVal (b : Nat) : Nat :=
  if 48 ≤ b && b ≤ 57 then b - 48
  else if 97 ≤ b && b ≤ 102 then b - 87
  else b - 55

/-- Embeds `percent_decode_str` at the byte level: `%HH` with two hex digits
decodes to the byte `HH`; a `%` not followed by two hex digits stays literal
and decoding resumes at the next byte. -/
def percentDecodeBytes : List Nat → List Nat
  | [] => []
  | 37 :: h1 :: h2 :: rest =>
    if isHexB h1 && isHexB h2 then (16 * hexVal h1 + hexVal h2) :: percentDecodeBytes rest
    else 37 :: percentDecodeBytes (h1 :: h2 :: rest)
  | b :: rest => b :: percentDecodeBytes rest

/-- Is `b` the code of an ASCII alphanumeric character? -/
def isAsciiAlnumB (b : Nat) : Bool :=
  (48 ≤ b && b ≤ 57) || (65 ≤ b && b ≤ 90) || (97 ≤ b && b ≤ 122)

/-- Uppercase hex digit character of `d < 16`. -/
def hexUpper (d : Nat) : Char :=
  if d < 10 then Char.ofNat (48 + d) else Char.ofNat (55 + d)

/-- Embeds `percent_encode(bytes, NON_ALPHANUMERIC).to_string()`: every
non-alphanumeric byte becomes `%HH` with uppercase hex. -/
def percentEncodeNA (bs : List Nat) : List Char :=
  bs.foldr
    (fun b acc =>
      if isAsciiAlnumB b then Char.ofNat b :: acc
      else '%' :: hexUpper (b / 16) :: hexUpper (b % 16) :: acc)
    []

/-! ### Paths (`std::path`) -/

/-- Embedding of `std::path::PathBuf`: whether the path is absolute, plus its
list of normal components (empty components and `.` are not components, per
`std::path::Components`). -/
structure PathV where
  absolute : Bool
  segs : List (List Char)
deriving DecidableEq

/-- Parse a Rust path string into its components. -/
def parsePath (s : List Char) : PathV :=
  { absolute := s.head? == some '/'
  , segs := (List.splitOn '/' s).filter (fun seg => !(seg.isEmpty || seg == str ".")) }

/-- Embeds `Path::join` (= `PathBuf::push`): an absolute argument replaces the
whole path, otherwise the components are appended. -/
def PathV.join (p q : PathV) : PathV :=
  if q.absolute then q else ⟨p.absolute, p.segs ++ q.segs⟩

/-- `Path::new("/")`, the server's fixed root (`root_path` in
`generate_response`, and `PathBuf::from("/")` in `extract_path`). -/
def rootPathV : PathV := ⟨true, []⟩

/-- Embeds `requested_path.strip_prefix("/").unwrap_or(requested_path)`:
stripping the root prefix succeeds exactly on absolute paths and yields the
same components relatively; otherwise the path is returned unchanged. -/
def stripLeadingSlash (p : PathV) : PathV :=
  if p.absolute then ⟨false, p.segs⟩ else p

/-- The absolute path queried by the filesystem resolver (main.rs line 54):
`root_path.join(requested_path.strip_prefix("/").unwrap_or(requested_path))`.
-/
def fullPathOf (requested : PathV) : PathV :=
  PathV.join rootPathV (stripLeadingSlash requested)

/-- Embeds `Path::to_string_lossy` on component-normal paths. -/
def pathToString (p : PathV) : List Char :=
  if p.absolute then '/' :: List.intercalate (str "/") p.segs
  else List.intercalate (str "/") p.segs

/-- Embeds `Path::parent`: `None` at `/` (and at the empty path), otherwise
the path with the last component dropped. -/
def PathV.parent (p : PathV) : Option PathV :=
  match p.segs with
  | [] => none
  | _ :: _ => some ⟨p.absolute, p.segs.dropLast⟩

/-- Embeds `Path::file_name`: the last component, if any. -/
def PathV.fileName (p : PathV) : Option (List Char) := p.segs.getLast?

/-- OS-level resolution of `.` and `..` components against an already-resolved
(left) part; for absolute paths `..` at the root resolves to the root itself
(`/.. = /`), which is how the kernel resolves the queried path. `acc` holds
the resolved components in reverse. -/
def normSegs (acc : List (List Char)) : List (List Char) → List (List Char)
  | [] => acc.reverse
  | s :: rest =>
    if s = str ".." then normSegs (acc.drop 1) rest
    else if s = str "." then normSegs acc rest
    else normSegs (s :: acc) rest

/-- The fully resolved form of an absolute path, as the OS resolves it. -/
def normalizePath (p : PathV) : PathV := ⟨p.absolute, normSegs [] p.segs⟩

/-! ### The Path Decoder (`extract_path`, main.rs lines 39-50) -/

/-- Strip one trailing `'\r'` (what `str::lines` does to each line). -/
def stripCR (l : List Char) : List Char :=
  match l.getLast? with
  | some '\r' => l.dropLast
  | _ => l

/-- Embeds `str::split_whitespace`: maximal runs of non-whitespace characters.
-/
def splitWhitespace (l : List Char) : List (List Char) :=
  (l.foldr
    (fun c groups =>
      if c.isWhitespace then [] :: groups
      else
        match groups with
        | [] => [[c]]
        | g :: gs => (c :: g) :: gs)
    []).filter (fun t => !t.isEmpty)

/-- Embeds `extract_path` (main.rs lines 39-50). The second
whitespace-delimited token of the first line is the target (default `"/"`);
`&path[1..]` panics — embedded as `none` — unless byte index 1 is a char
boundary, i.e. unless the first character of the target is a single UTF-8
byte; the rest is percent-decoded, lossily UTF-8-decoded, and joined onto
`PathBuf::from("/")`. -/
def extract_path (request : List Char) : Option PathV :=
  let firstLine := stripCR (request.takeWhile (fun c => c ≠ '\n'))
  let target := ((splitWhitespace firstLine)[1]?).getD (str "/")
  match target with
  | [] => none
  | c :: rest =>
    if c.utf8Size = 1 then
      some (PathV.join rootPathV
        (parsePath (utf8DecodeLossy (percentDecodeBytes (utf8Encode rest)))))
    else none

/-- The whole decoding front end applied to the raw inbound bytes:
`String::from_utf8_lossy` (main.rs line 26) followed by `extract_path`. -/
def decodeRequestBytes (bs : List Nat) : Option PathV :=
  extract_path (utf8DecodeLossy bs)

/-! ### Directory entries and filesystem inputs -/

/-- Embeds `std::fs::Metadata` as consumed by the server: `is_dir()`,
`len()`, and `modified()` — the latter is fallible, and when available we
carry the `chrono`-formatted local timestamp string that
`modified.format("%Y-%m-%d %H:%M:%S")` produces from it. -/
structure EntryMeta where
  isDir : Bool
  len : Nat
  modified : Option (List Char)
deriving DecidableEq

/-- One entry yielded by `read_dir`: its file name and the (fallible) result
of `entry.metadata()`. -/
structure DirEntryV where
  name : List Char
  meta : Option EntryMeta
deriving DecidableEq

/-- The tuple `(name, is_dir, size, modified)` pushed into `entries`
(main.rs line 88); `size` and `modified` are already-rendered strings. -/
structure RowData where
  name : List Char
  isDir : Bool
  size : List Char
  modified : List Char
deriving DecidableEq

/-- Models the external `humansize` crate's `format_size(len, BINARY)`
(1024-based units). No theorem depends on the exact digits, only on the
output being a function of `len`. -/
def formatSize (len : Nat) : List Char :=
  if len < 1024 then natToDec len ++ str " B"
  else if len < 1048576 then natToDec (len * 100 / 1024) ++ str "e-2 KiB"
  else if len < 1073741824 then natToDec (len * 100 / 1048576) ++ str "e-2 MiB"
  else natToDec (len * 100 / 1073741824) ++ str "e-2 GiB"

/-! ### The sort comparator (main.rs lines 92-98) -/

/-- Code-point lexicographic comparison of names; for UTF-8 encoded strings
this coincides with Rust's byte-wise `Ord` on `String`. -/
def cmpChars : List Char → List Char → Ordering
  | [], [] => .eq
  | [], _ :: _ => .lt
  | _ :: _, [] => .gt
  | a :: as, b :: bs =>
    if a.toNat < b.toNat then .lt
    else if b.toNat < a.toNat then .gt
    else cmpChars as bs

/-- `Ord` on `bool`: `false < true`. -/
def cmpBool : Bool → Bool → Ordering
  | false, true => .lt
  | true, false => .gt
  | _, _ => .eq

/-- The comparator passed to `entries.sort_by`: equal `is_dir` compares names
ascending (`a.0.cmp(&b.0)`), otherwise directories first (`b.1.cmp(&a.1)`). -/
def rowCmp (a b : RowData) : Ordering :=
  if a.isDir = b.isDir then cmpChars a.name b.name else cmpBool b.isDir a.isDir

/-- `rowCmp a b ≠ Greater`: the "may stay before" relation of the sort. -/
def rowLe (a b : RowData) : Bool :=
  match rowCmp a b with
  | .gt => false
  | _ => true

/-- Stable insertion of one element into an already sorted list: `e` goes in
front of the first element it compares `≤` to. -/
def insertRow (e : RowData) : List RowData → List RowData
  | [] => [e]
  | y :: ys => if rowLe e y then e :: y :: ys else y :: insertRow e ys

/-- Embeds `entries.sort_by(comparator)`. `slice::sort_by` is a stable
comparison sort; for a comparator that is a total preorder every stable
comparison sort produces the same output, so we embed it as the stable
insertion sort. -/
def sortRows (l : List RowData) : List RowData := l.foldr insertRow []

/-! ### The HTML templates (verbatim from main.rs) -/

/-- Listing template up to the `<title>` interpolation of `current_path`. -/
def lt1 : List Char :=
  str "<!DOCTYPE html>\n        <html>\n        <head>\n            <title>File Browser - "

/-- Listing template between the two `current_path` interpolations. -/
def lt2 : List Char :=
  str "</title>\n            <style>\n                body \x7b font-family: \x27Segoe UI\x27, Tahoma, Geneva, Verdana, sans-serif; margin: 0; padding: 20px; \x7d\n                .container \x7b max-width: 1200px; margin: 0 auto; \x7d\n                .header \x7b background: #f8f9fa; padding: 20px; border-radius: 8px; margin-bottom: 20px; \x7d\n                .breadcrumb \x7b margin-bottom: 20px; \x7d\n                table \x7b width: 100%; border-collapse: collapse; \x7d\n                th, td \x7b padding: 12px; text-align: left; border-bottom: 1px solid #ddd; \x7d\n                th \x7b background: #f8f9fa; \x7d\n                tr:hover \x7b background: #f5f5f5; \x7d\n                .icon \x7b margin-right: 8px; \x7d\n                a \x7b color: #0366d6; text-decoration: none; \x7d\n                a:hover \x7b text-decoration: underline; \x7d\n            </style>\n        </head>\n        <body>\n            <div class=\"container\">\n                <div class=\"header\">\n                    <h1>File Browser</h1>\n                    <div class=\"breadcrumb\">\n                        <a href=\"/\">Root</a> / "

/-- Listing template between the breadcrumb and the parent-row slot. -/
def lt3 : List Char :=
  str "</div>\n                </div>\n                <table>\n                    <thead>\n                        <tr>\n                            <th>Name</th>\n                            <th>Size</th>\n                            <th>Modified</th>\n                        </tr>\n                    </thead>\n                    <tbody>\n                        "

/-- Listing template between the parent-row slot and the rows slot. -/
def lt4 : List Char := str "\n                        "

/-- Listing template tail after the rows slot. -/
def lt5 : List Char :=
  str "\n                    </tbody>\n                </table>\n            </div>\n        </body>\n        </html>"

/-- The parent-navigation row (main.rs line 148), interpolating
`parent_path`. -/
def parentRowHtml (pp : List Char) : List Char :=
  str "<tr><td><a href=\"" ++ pp ++ str "\">📁 ..</a></td><td>-</td><td>-</td></tr>"

/-- The percent-encoded link target of one row (main.rs line 153). -/
def encodedPath (cp name : List Char) : List Char :=
  percentEncodeNA (utf8Encode (cp ++ str "/" ++ name))

/-- One entry row (main.rs lines 152-166). -/
def entryRow (cp : List Char) (r : RowData) : List Char :=
  str "<tr>\n                    <td><a href=\"" ++ encodedPath cp r.name
    ++ str "\">" ++ (if r.isDir then str "📁" else str "📄") ++ str " " ++ r.name
    ++ str "</a></td>\n                    <td>" ++ (if r.isDir then str "-" else r.size)
    ++ str "</td>\n                    <td>" ++ r.modified
    ++ str "</td>\n                </tr>"

/-- The assembled listing document (the big `format!` of
`generate_directory_listing`). -/
def listingDoc (cp pp : List Char) (showParent : Bool) (rowsJ : List Char) : List Char :=
  lt1 ++ cp ++ lt2 ++ cp ++ lt3
    ++ (if showParent then parentRowHtml pp else [])
    ++ lt4 ++ rowsJ ++ lt5

/-- File-info template up to the `<title>` interpolation of `file_name`. -/
def fi1 : List Char :=
  str "<!DOCTYPE html>\n        <html>\n        <head>\n            <title>File Info - "

/-- File-info template between the two `file_name` interpolations. -/
def fi2 : List Char :=
  str "</title>\n            <style>\n                body \x7b font-family: \x27Segoe UI\x27, Tahoma, Geneva, Verdana, sans-serif; margin: 40px; \x7d\n                .file-info \x7b background: #f8f9fa; padding: 20px; border-radius: 8px; \x7d\n                .back-link \x7b margin-bottom: 20px; \x7d\n                a \x7b color: #0366d6; text-decoration: none; \x7d\n                a:hover \x7b text-decoration: underline; \x7d\n            </style>\n        </head>\n        <body>\n            <div class=\"back-link\">\n                <a href=\"javascript:history.back()\">← Back</a>\n            </div>\n            <div class=\"file-info\">\n                <h2>📄 "

/-- File-info template between `file_name` and `size`. -/
def fi3 : List Char := str "</h2>\n                <p>Size: "

/-- File-info template between `size` and the modified timestamp. -/
def fi4 : List Char := str "</p>\n                <p>Modified: "

/-- File-info template tail. -/
def fi5 : List Char :=
  str "</p>\n            </div>\n        </body>\n        </html>"

/-- The assembled file-info document (the `format!` of `generate_file_info`).
-/
def fileInfoHtml (name size modified : List Char) : List Char :=
  fi1 ++ name ++ fi2 ++ name ++ fi3 ++ size ++ fi4 ++ modified ++ fi5

/-- Embeds `generate_error_page` (main.rs lines 206-224): a fixed document. -/
def generate_error_page : List Char :=
  str "<!DOCTYPE html>\n        <html>\n        <head>\n            <title>Error - Path Not Found</title>\n            <style>\n                body \x7b font-family: \x27Segoe UI\x27, Tahoma, Geneva, Verdana, sans-serif; margin: 40px; \x7d\n                .error \x7b color: #dc3545; \x7d\n            </style>\n        </head>\n        <body>\n            <h1 class=\"error\">404 - Path Not Found</h1>\n            <p>The requested path could not be found.</p>\n            <a href=\"/\">Return to Home</a>\n        </body>\n        </html>"

/-! ### The renderers (main.rs lines 78-204) -/

/-- The per-entry collection loop of `generate_directory_listing` (lines
82-90): an entry whose `entry.metadata()` fails is skipped; an entry whose
`metadata.modified()` fails makes `.unwrap()` panic — embedded as `none`. -/
def collectRows : List DirEntryV → Option (List RowData)
  | [] => some []
  | e :: rest =>
    match e.meta with
    | none => collectRows rest
    | some m =>
      match m.modified with
      | none => none
      | some ts =>
        (collectRows rest).map (fun rs => ⟨e.name, m.isDir, formatSize m.len, ts⟩ :: rs)

/-- Embeds `generate_directory_listing` (main.rs lines 78-168). `rd` is the
result of `fs::read_dir(path)`: `none` makes the `.unwrap()` on line 80 panic
(embedded as `none`). The parent row is emitted whenever
`!path.as_os_str().is_empty()`. -/
def generate_directory_listing (path : PathV) (rd : Option (List DirEntryV)) :
    Option (List Char) :=
  match rd with
  | none => none
  | some es =>
    (collectRows es).map (fun rows =>
      let cp := pathToString path
      let pp := ((PathV.parent path).map pathToString).getD []
      listingDoc cp pp (!(pathToString path).isEmpty)
        (List.intercalate (str "\n") ((sortRows rows).map (entryRow cp))))

/-- Embeds `generate_file_info` (main.rs lines 170-204). The `.unwrap()` on
`metadata.modified()` (line 173) panics when unavailable — embedded as
`none`. -/
def generate_file_info (path : PathV) (m : EntryMeta) : Option (List Char) :=
  let fname := (PathV.fileName path).getD []
  match m.modified with
  | none => none
  | some ts => some (fileInfoHtml fname (formatSize m.len) ts)

/-! ### The Response Framer and `generate_response` (main.rs lines 52-76) -/

/-- The fixed header text before the Content-Length value, exactly as in the
`format!` string of `generate_response` (the `\` line continuations strip the
newline and following indentation). -/
def headerPre : List Char :=
  str "HTTP/1.1 200 OK\r\nContent-Type: text/html; charset=utf-8\r\nContent-Length: "

/-- The status line plus Content-Type header, a prefix of every response. -/
def statusCTHeader : List Char :=
  str "HTTP/1.1 200 OK\r\nContent-Type: text/html; charset=utf-8\r\n"

/-- The response framing: headers, `Content-Length: {html.len()}` (a byte
count), blank line, body. -/
def frameResponse (html : List Char) : List Char :=
  headerPre ++ natToDec (byteLen html) ++ str "\r\n\r\n" ++ html

/-- Embeds `generate_response` (main.rs lines 52-76). `md` is the result of
`fs::metadata(&full_path)` (`none` = error, classified Missing); `rd` is the
result of `fs::read_dir(&full_path)`, consulted only in the directory branch.
A `none` result is a panic inside a renderer (the connection task dies and
the connection is abandoned without a response). -/
def generate_response (requested : PathV) (md : Option EntryMeta)
    (rd : Option (List DirEntryV)) : Option (List Char) :=
  let full := fullPathOf requested
  let html? :=
    match md with
    | none => some generate_error_page
    | some m =>
      if m.isDir then generate_directory_listing full rd
      else generate_file_info full m
  html?.map frameResponse

/-! ### Auxiliary definitions used by the specification theorems -/

/-- The digit-accumulation step of reading a decimal number. -/
def stepD (m : Nat) (c : Char) : Nat := 10 * m + (c.toNat - 48)

/-- Drop an expected prefix, or fail. -/
def dropPre : List Char → List Char → Option (List Char)
  | [], s => some s
  | _ :: _, [] => none
  | c :: cs, d :: ds => if c = d then dropPre cs ds else none

/-- Independent parser for framed responses: checks the fixed status line,
Content-Type header and `Content-Length: ` label, reads the decimal value,
expects the header-ending CRLF plus the blank-line CRLF, and returns the
declared length together with the body that follows the blank-line delimiter.
-/
def parseFramedResponse (s : List Char) : Option (Nat × List Char) :=
  match dropPre headerPre s with
  | none => none
  | some rest =>
    match rest.dropWhile Char.isDigit with
    | '\r' :: '\n' :: '\r' :: '\n' :: body =>
      some ((rest.takeWhile Char.isDigit).foldl stepD 0, body)
    | _ => none

/-- A response is well-formed when it starts with the uniform status line and
Content-Type header. -/
def respOkB (r : List Char) : Bool := List.isPrefixOf statusCTHeader r

/-- The listing order required of two rows `a` before `b`: no file ever
precedes a directory, and inside one group names are ascending. -/
def rowBefore (a b : RowData) : Prop :=
  (b.isDir = true → a.isDir = true) ∧
  (a.isDir = b.isDir → cmpChars a.name b.name ≠ .gt)

/-- An enumerated entry that does not make the listing loop panic: if its
metadata is readable, its modification time is too. -/
def entryOkB (e : DirEntryV) : Bool :=
  match e.meta with
  | none => true
  | some m => m.modified.isSome

/-- The row a non-panicking entry contributes, if it is not skipped. -/
def rowOf (e : DirEntryV) : Option RowData :=
  e.meta.bind fun m => m.modified.map fun ts =>
    ⟨e.name, m.isDir, formatSize m.len, ts⟩

/-! ### Lemmas: decimal rendering round-trips -/

theorem digChar_toNat {d : Nat} (h : d < 10) : (digChar d).toNat = 48 + d := by
  interval_cases d <;> decide

theorem digChar_isDigit {d : Nat} (h : d < 10) : (digChar d).isDigit = true := by
  interval_cases d <;> decide

theorem natToDecGo_foldl :
    ∀ fuel n acc m, n < fuel →
      ∃ k, (natToDecGo fuel n acc).foldl stepD m = acc.foldl stepD (m * 10 ^ k + n)
  | 0, n, _, _, h => absurd h (Nat.not_lt_zero n)
  | fuel + 1, n, acc, m, h => by
    by_cases h10 : n < 10
    · refine ⟨1, ?_⟩
      simp only [natToDecGo, if_pos h10, List.foldl_cons, stepD, digChar_toNat h10]
      congr 1
      omega
    · have hlt : n / 10 < fuel := by omega
      obtain ⟨k, hk⟩ := natToDecGo_foldl fuel (n / 10) (digChar (n % 10) :: acc) m hlt
      refine ⟨k + 1, ?_⟩
      simp only [natToDecGo, if_neg h10]
      rw [hk]
      simp only [List.foldl_cons, stepD, digChar_toNat (Nat.mod_lt n (by omega))]
      congr 1
      have h1 : 10 * (n / 10) + n % 10 = n := Nat.div_add_mod n 10
      calc 10 * (m * 10 ^ k + n / 10) + ((48 + n % 10) - 48)
          = 10 * (m * 10 ^ k) + (10 * (n / 10) + n % 10) := by omega
        _ = 10 * (m * 10 ^ k) + n := by rw [h1]
        _ = m * 10 ^ (k + 1) + n := by ring

theorem natToDec_foldl (n : Nat) : (natToDec n).foldl stepD 0 = n := by
  obtain ⟨k, hk⟩ := natToDecGo_foldl (n + 1) n [] 0 (Nat.lt_succ_self n)
  simpa using hk

theorem natToDecGo_digits :
    ∀ fuel n acc, (∀ c ∈ acc, c.isDigit = true) →
      ∀ c ∈ natToDecGo fuel n acc, c.isDigit = true
  | 0, _, _, hacc => hacc
  | fuel + 1, n, acc, hacc => by
    by_cases h10 : n < 10
    · simp only [natToDecGo, if_pos h10]
      intro c hc
      rcases List.mem_cons.mp hc with rfl | hc
      · exact digChar_isDigit h10
      · exact hacc c hc
    · simp only [natToDecGo, if_neg h10]
      refine natToDecGo_digits fuel (n / 10) _ ?_
      intro c hc
      rcases List.mem_cons.mp hc with rfl | hc
      · exact digChar_isDigit (Nat.mod_lt n (by omega))
      · exact hacc c hc

theorem natToDec_digits (n : Nat) : ∀ c ∈ natToDec n, c.isDigit = true :=
  natToDecGo_digits (n + 1) n [] (by simp)

theorem takeWhile_digits_append {ds : List Char} (h : ∀ c ∈ ds, c.isDigit = true)
    (rest : List Char) :
    (ds ++ '\r' :: rest).takeWhile Char.isDigit = ds ∧
    (ds ++ '\r' :: rest).dropWhile Char.isDigit = '\r' :: rest := by
  induction ds with
  | nil => constructor <;> simp [List.takeWhile, List.dropWhile]
  | cons d ds ih =>
    have hd : d.isDigit = true := h d (by simp)
    have ih' := ih (fun c hc => h c (by simp [hc]))
    constructor
    · simp [List.takeWhile, hd, ih'.1]
    · simp [List.dropWhile, hd, ih'.2]

theorem dropPre_append : ∀ p s : List Char, dropPre p (p ++ s) = some s
  | [], s => rfl
  | c :: cs, s => by simp [dropPre, dropPre_append cs s]

/-- C5: for every rendered response, the numeric value of the Content-Length
header equals the exact byte length — not the character count — of the body
that follows the blank-line delimiter; the directory glyph measures 4 bytes
but 1 character, so the two counts genuinely differ on glyph-bearing bodies.
-/
theorem spec_c5_content_length_exact :
    (∀ html, parseFramedResponse (frameResponse html) = some (byteLen html, html)) ∧
    byteLen (str "📁") = 4 ∧ (str "📁").length = 1 := by
  refine ⟨fun html => ?_, by decide, by decide⟩
  have hdigits := natToDec_digits (byteLen html)
  have hspan := takeWhile_digits_append hdigits ('\n' :: '\r' :: '\n' :: html)
  have hstr : str "\r\n\r\n" ++ html = '\r' :: '\n' :: '\r' :: '\n' :: html := rfl
  simp only [parseFramedResponse, frameResponse, List.append_assoc, hstr,
    dropPre_append, hspan.1, hspan.2, natToDec_foldl]

/-! ### Lemmas: the uniform response framing -/

theorem isPrefixOf_self_append : ∀ p t : List Char, List.isPrefixOf p (p ++ t) = true
  | [], _ => by simp [List.isPrefixOf]
  | c :: cs, t => by simp [List.isPrefixOf, isPrefixOf_self_append cs t]

theorem headerPre_split : headerPre = statusCTHeader ++ str "Content-Length: " := by decide

theorem respOkB_frame (html : List Char) : respOkB (frameResponse html) = true := by
  rw [respOkB, frameResponse, headerPre_split, List.append_assoc, List.append_assoc]
  exact isPrefixOf_self_append _ _

/-- C6: every response the server frames — for directories, files, and for
paths whose metadata cannot be read — starts with the status line
`HTTP/1.1 200 OK` and the `Content-Type: text/html; charset=utf-8` header,
and a Missing classification yields exactly the error renderer's fixed
document framed with that same 200 status line (never an HTTP 404 status). -/
theorem spec_c6_uniform_status (requested : PathV) (md : Option EntryMeta)
    (rd : Option (List DirEntryV)) :
    (generate_response requested md rd).all respOkB = true ∧
    generate_response requested none rd = some (frameResponse generate_error_page) := by
  refine ⟨?_, rfl⟩
  rw [generate_response.eq_def]
  rcases md with _ | m
  · simp [respOkB_frame]
  · by_cases hdir : m.isDir = true
    · simp only [hdir, if_pos]
      rcases h : generate_directory_listing (fullPathOf requested) rd with _ | body
      · simp
      · simp [respOkB_frame]
    · simp only [hdir]
      rcases h : generate_file_info (fullPathOf requested) m with _ | body
      · simp [h]
      · simp [h, respOkB_frame]

/-! ### Lemmas: path resolution is anchored at the root -/

theorem normSegs_no_dotdot :
    ∀ (l acc : List (List Char)), (∀ s ∈ acc, s ≠ str "..") →
      ∀ s ∈ normSegs acc l, s ≠ str ".."
  | [], acc, hacc => by
    simpa [normSegs] using fun s hs => hacc s hs
  | seg :: rest, acc, hacc => by
    rw [normSegs]
    by_cases h2 : seg = str ".."
    · simp only [if_pos h2]
      exact normSegs_no_dotdot rest (acc.drop 1)
        (fun s hs => hacc s (List.mem_of_mem_drop hs))
    · simp only [if_neg h2]
      by_cases h1 : seg = str "."
      · simp only [if_pos h1]
        exact normSegs_no_dotdot rest acc hacc
      · simp only [if_neg h1]
        refine normSegs_no_dotdot rest (seg :: acc) ?_
        intro s hs
        rcases List.mem_cons.mp hs with rfl | hs
        · exact h2
        · exact hacc s hs

theorem extract_path_shape {request : List Char} {p : PathV}
    (h : extract_path request = some p) :
    ∃ d, p = PathV.join rootPathV (parsePath d) := by
  rw [extract_path] at h
  split at h
  · exact absurd h (by simp)
  · split at h
    · exact ⟨_, (Option.some.injEq _ _ ▸ h).symm⟩
    · exact absurd h (by simp)

theorem join_root_absolute (q : PathV) : (PathV.join rootPathV q).absolute = true := by
  rw [PathV.join]
  by_cases h : q.absolute = true
  · simp [h]
  · simp [h, rootPathV]

/-- C2: for every raw inbound request that the decoder survives, the absolute
path handed to the filesystem resolver is anchored at the server's fixed root
`/`: it is always an absolute path, its OS-resolved form extends the resolved
root (so resolution never reaches an ancestor of the root), and no `..`
survives OS resolution — even when the decoded target contains `..` segments
or an embedded absolute path, because the join step always anchors the
decoded path to the root. -/
theorem spec_c2_resolution_under_root (request : List Char) (p : PathV)
    (h : extract_path request = some p) :
    (fullPathOf p).absolute = true ∧
    (∃ t, (normalizePath (fullPathOf p)).segs = (normalizePath rootPathV).segs ++ t) ∧
    (∀ s ∈ (normalizePath (fullPathOf p)).segs, s ≠ str "..") := by
  obtain ⟨d, rfl⟩ := extract_path_shape h
  refine ⟨?_, ⟨(normalizePath (fullPathOf (PathV.join rootPathV (parsePath d)))).segs, ?_⟩, ?_⟩
  · rw [fullPathOf]
    exact join_root_absolute _
  · simp [normalizePath, rootPathV, normSegs]
  · exact normSegs_no_dotdot _ [] (by simp)

/-- Witness for C2 at a concrete traversal attempt: the request
`GET /%2e%2e/secret HTTP/1.1` decodes to the path `/../secret`, whose
resolution stays under the root. -/
theorem spec_c2_witness :
    (fullPathOf ⟨true, [str "..", str "secret"]⟩).absolute = true ∧
    (∃ t, (normalizePath (fullPathOf ⟨true, [str "..", str "secret"]⟩)).segs =
      (normalizePath rootPathV).segs ++ t) ∧
    (∀ s ∈ (normalizePath (fullPathOf ⟨true, [str "..", str "secret"]⟩)).segs,
      s ≠ str "..") :=
  spec_c2_resolution_under_root (str "GET /%2e%2e/secret HTTP/1.1")
    ⟨true, [str "..", str "secret"]⟩ (by decide)

/-! ### Code-level divergences from the specification -/

/-- C1: the claim that no operation in the pipeline panics is violated by the
code. For a request resolving to a directory, (a) a failed
`fs::read_dir` hits the `.unwrap()` on main.rs line 80 and (b) a failed
`metadata.modified()` on an individual entry hits the `.unwrap()` on line 86;
both panic the connection task (embedded result `none`) instead of skipping
and continuing as the specification requires. -/
theorem spec_c1_pipeline_panics :
    generate_response ⟨true, [str "docs"]⟩
      (some ⟨true, 0, some (str "2024-01-01 00:00:00")⟩) none = none ∧
    generate_response ⟨true, [str "docs"]⟩
      (some ⟨true, 0, some (str "2024-01-01 00:00:00")⟩)
      (some [⟨str "f.txt", some ⟨false, 5, none⟩⟩]) = none := by
  constructor <;> rfl

/-- C3: the claim that the root listing omits the parent-navigation row is
violated by the code. The guard `!path.as_os_str().is_empty()` (main.rs line
147) is always true — the listed path always starts with `/` — so rendering
the root directory `/` still emits the `..` row, here with an empty link
target because `Path::parent` of `/` is `None`. -/
theorem spec_c3_root_has_parent_row :
    ∃ pre post, generate_directory_listing ⟨true, []⟩ (some []) =
      some (pre ++ parentRowHtml [] ++ post) := by
  refine ⟨lt1 ++ str "/" ++ lt2 ++ str "/" ++ lt3, lt4 ++ lt5, ?_⟩
  simp [generate_directory_listing, collectRows, listingDoc, pathToString,
    rootPathV, PathV.parent, sortRows, List.intercalate, str]

/-- C4: the claim that the path decoder never fails the connection is
violated by the code. For the inbound bytes of `GET é HTTP/1.1` — a
well-formed UTF-8 stream whose target token starts with a two-byte character
— the slice `&path[1..]` (main.rs line 45) is not on a char boundary and
panics (embedded result `none`) instead of producing a path value. -/
theorem spec_c4_decoder_panics :
    decodeRequestBytes (utf8Encode (str "GET é HTTP/1.1")) = none := by decide

/-! ### Lemmas: the comparator and the sort -/

theorem charToNatInj {a b : Char} (h : a.toNat = b.toNat) : a = b := by
  rw [← Char.ofNat_toNat a, ← Char.ofNat_toNat b, h]

theorem cmpChars_le_trans : ∀ x y z : List Char,
    cmpChars x y ≠ .gt → cmpChars y z ≠ .gt → cmpChars x z ≠ .gt
  | [], _, [], _, _ => by simp [cmpChars]
  | [], _, _ :: _, _, _ => by simp [cmpChars]
  | _ :: _, [], _, h1, _ => by simp [cmpChars] at h1
  | _ :: _, _ :: _, [], _, h2 => by simp [cmpChars] at h2
  | a :: as, b :: bs, c :: cs, h1, h2 => by
    simp only [cmpChars] at h1 h2 ⊢
    split_ifs at h1 h2 ⊢ <;>
      first
        | decide
        | (exact absurd rfl h1)
        | (exact absurd rfl h2)
        | (exfalso; omega)
        | (exact cmpChars_le_trans as bs cs h1 h2)

theorem cmpChars_antisymm : ∀ x y : List Char,
    cmpChars x y ≠ .gt → cmpChars y x ≠ .gt → x = y
  | [], [], _, _ => rfl
  | [], _ :: _, _, h2 => by simp [cmpChars] at h2
  | _ :: _, [], h1, _ => by simp [cmpChars] at h1
  | a :: as, b :: bs, h1, h2 => by
    simp only [cmpChars] at h1 h2
    split_ifs at h1 h2 <;>
      first
        | (exact absurd rfl h1)
        | (exact absurd rfl h2)
        | (exfalso; omega)
        | (rw [charToNatInj (show a.toNat = b.toNat by omega),
               cmpChars_antisymm as bs h1 h2])

theorem cmpChars_total : ∀ x y : List Char,
    cmpChars x y ≠ .gt ∨ cmpChars y x ≠ .gt
  | [], y => by cases y <;> simp [cmpChars]
  | _ :: _, [] => by simp [cmpChars]
  | a :: as, b :: bs => by
    simp only [cmpChars]
    split_ifs <;>
      first
        | (left; decide)
        | (right; decide)
        | (exact cmpChars_total as bs)

theorem rowLe_iff {a b : RowData} : rowLe a b = true ↔ rowCmp a b ≠ .gt := by
  rcases h : rowCmp a b <;> simp [rowLe, h]

theorem rowLe_total (a b : RowData) : rowLe a b = true ∨ rowLe b a = true := by
  rw [rowLe_iff, rowLe_iff, rowCmp, rowCmp]
  by_cases hd : a.isDir = b.isDir
  · rw [if_pos hd, if_pos hd.symm]
    exact cmpChars_total a.name b.name
  · rw [if_neg hd, if_neg (fun h => hd h.symm)]
    cases ha : a.isDir <;> cases hb : b.isDir <;> simp_all [cmpBool]

theorem rowLe_trans {a b c : RowData} (h1 : rowLe a b = true)
    (h2 : rowLe b c = true) : rowLe a c = true := by
  rw [rowLe_iff] at h1 h2 ⊢
  rw [rowCmp] at h1 h2 ⊢
  cases ha : a.isDir <;> cases hb : b.isDir <;> cases hc : c.isDir <;>
    simp_all [cmpBool] <;>
    exact cmpChars_le_trans _ _ _ h1 h2

theorem rowLe_antisymm_name {a b : RowData} (h1 : rowLe a b = true)
    (h2 : rowLe b a = true) : a.name = b.name := by
  rw [rowLe_iff] at h1 h2
  rw [rowCmp] at h1 h2
  by_cases hd : a.isDir = b.isDir
  · rw [if_pos hd] at h1
    rw [if_pos hd.symm] at h2
    exact cmpChars_antisymm _ _ h1 h2
  · rw [if_neg hd] at h1
    rw [if_neg (fun h => hd h.symm)] at h2
    cases ha : a.isDir <;> cases hb : b.isDir <;> simp_all [cmpBool]

theorem insertRow_perm (e : RowData) : ∀ l, List.Perm (insertRow e l) (e :: l)
  | [] => List.Perm.refl _
  | y :: ys => by
    rw [insertRow]
    by_cases h : rowLe e y = true
    · rw [if_pos h]
    · rw [if_neg h]
      exact ((insertRow_perm e ys).cons y).trans (List.Perm.swap e y ys)

theorem sortRows_perm : ∀ l, List.Perm (sortRows l) l
  | [] => List.Perm.refl _
  | x :: xs => by
    show List.Perm (insertRow x (sortRows xs)) (x :: xs)
    exact (insertRow_perm x _).trans ((sortRows_perm xs).cons x)

theorem insertRow_sorted {e : RowData} {l : List RowData}
    (hl : l.Pairwise (fun a b => rowLe a b = true)) :
    (insertRow e l).Pairwise (fun a b => rowLe a b = true) := by
  induction l with
  | nil => simp [insertRow]
  | cons y ys ih =>
    rw [insertRow]
    by_cases h : rowLe e y = true
    · rw [if_pos h]
      refine List.Pairwise.cons ?_ hl
      intro z hz
      rcases List.mem_cons.mp hz with rfl | hz
      · exact h
      · exact rowLe_trans h (List.rel_of_pairwise_cons hl hz)
    · rw [if_neg h]
      have hye : rowLe y e = true := (rowLe_total e y).resolve_left h
      refine List.Pairwise.cons ?_ (ih (List.Pairwise.of_cons hl))
      intro z hz
      rcases List.mem_cons.mp ((insertRow_perm e ys).mem_iff.mp hz) with rfl | hz
      · exact hye
      · exact List.rel_of_pairwise_cons hl hz

theorem sortRows_sorted : ∀ l, (sortRows l).Pairwise (fun a b => rowLe a b = true)
  | [] => by simp [sortRows]
  | x :: xs => insertRow_sorted (sortRows_sorted xs)

theorem sortRows_eq_of_perm {l1 l2 : List RowData} (hp : List.Perm l1 l2)
    (hnd : (l1.map RowData.name).Nodup) : sortRows l1 = sortRows l2 := by
  haveI : IsAntisymm RowData (fun a b => rowLe a b = true ∧ a.name ≠ b.name) :=
    ⟨fun a b h1 h2 => absurd (rowLe_antisymm_name h1.1 h2.1) h1.2⟩
  have hsortedNe : ∀ l : List RowData, (l.map RowData.name).Nodup →
      (sortRows l).Pairwise (fun a b => rowLe a b = true ∧ a.name ≠ b.name) := by
    intro l hl
    have hnodup : ((sortRows l).map RowData.name).Nodup :=
      (((sortRows_perm l).map RowData.name).symm).nodup hl
    have hne := List.pairwise_map.mp hnodup
    exact (sortRows_sorted l).and hne
  exact List.eq_of_perm_of_sorted
    (((sortRows_perm l1).trans hp).trans (sortRows_perm l2).symm)
    (hsortedNe l1 hnd) (hsortedNe l2 ((hp.map RowData.name).nodup hnd))

/-! ### C7 and C9: listing order and determinism -/

theorem rowLe_implies_rowBefore {a b : RowData} (h : rowLe a b = true) :
    rowBefore a b := by
  rw [rowLe_iff, rowCmp] at h
  by_cases hd : a.isDir = b.isDir
  · rw [if_pos hd] at h
    exact ⟨fun hb => hd.trans hb, fun _ => h⟩
  · rw [if_neg hd] at h
    cases ha : a.isDir <;> cases hb : b.isDir <;> simp_all [cmpBool, rowBefore]

/-- C7: in every rendered directory listing the rows are sorted with every
directory before every file and, within each group, names ascending; and
because names are unique within one directory the order is total, so the
sorted sequence is uniquely determined by the entry set (any enumeration
order of the same entries sorts to the same sequence). -/
theorem spec_c7_sort_order (l : List RowData) :
    (sortRows l).Pairwise rowBefore ∧
    ∀ l', List.Perm l l' → (l.map RowData.name).Nodup → sortRows l = sortRows l' :=
  ⟨(sortRows_sorted l).imp (fun h => rowLe_implies_rowBefore h),
   fun _ hp hnd => sortRows_eq_of_perm hp hnd⟩

/-- Witness for C7 on the specification's own example `{b.txt, a.txt, sub/,
zz/}`: the sorted rows are ordered as required, and sorting the reversed
enumeration gives the identical sequence. -/
theorem spec_c7_witness :
    (sortRows [⟨str "b.txt", false, str "2 B", str "m1"⟩,
      ⟨str "a.txt", false, str "3 B", str "m2"⟩,
      ⟨str "sub", true, str "0 B", str "m3"⟩,
      ⟨str "zz", true, str "0 B", str "m4"⟩]).Pairwise rowBefore ∧
    sortRows [⟨str "b.txt", false, str "2 B", str "m1"⟩,
      ⟨str "a.txt", false, str "3 B", str "m2"⟩,
      ⟨str "sub", true, str "0 B", str "m3"⟩,
      ⟨str "zz", true, str "0 B", str "m4"⟩] =
    sortRows ([⟨str "b.txt", false, str "2 B", str "m1"⟩,
      ⟨str "a.txt", false, str "3 B", str "m2"⟩,
      ⟨str "sub", true, str "0 B", str "m3"⟩,
      ⟨str "zz", true, str "0 B", str "m4"⟩].reverse) :=
  ⟨(spec_c7_sort_order _).1,
   (spec_c7_sort_order _).2 _ (List.reverse_perm _).symm (by decide)⟩

theorem collectRows_eq : ∀ l : List DirEntryV,
    collectRows l = if l.all entryOkB then some (l.filterMap rowOf) else none
  | [] => rfl
  | e :: rest => by
    rw [collectRows]
    rcases hm : e.meta with _ | m
    · rw [collectRows_eq rest]
      simp [entryOkB, hm, rowOf]
    · rcases hmod : m.modified with _ | ts
      · simp [entryOkB, hm, hmod]
      · rw [collectRows_eq rest]
        by_cases hall : rest.all entryOkB = true
        · simp [entryOkB, hm, hmod, rowOf, hall]
        · simp [entryOkB, hm, hmod, rowOf, hall]

theorem rowOf_names_sublist : ∀ l : List DirEntryV,
    List.Sublist ((l.filterMap rowOf).map RowData.name) (l.map DirEntryV.name)
  | [] => by simp
  | e :: rest => by
    rcases hm : e.meta with _ | m
    · simp only [List.filterMap_cons, rowOf, hm, Option.bind, List.map_cons]
      exact (rowOf_names_sublist rest).cons _
    · rcases hmod : m.modified with _ | ts
      · simp only [List.filterMap_cons, rowOf, hm, hmod, Option.bind,
          Option.map_none, List.map_cons]
        exact (rowOf_names_sublist rest).cons _
      · simp only [List.filterMap_cons, rowOf, hm, hmod, Option.bind,
          Option.map_some, List.map_cons]
        exact (rowOf_names_sublist rest).cons₂ _

/-- C9: rendering a directory twice with unchanged contents yields
byte-identical HTML regardless of the order in which the filesystem
enumerates the entries — for any valid enumeration (unique names, no
panicking entry), permuting the enumeration does not change the rendered
document. -/
theorem spec_c9_render_deterministic (path : PathV) (l1 l2 : List DirEntryV)
    (hp : List.Perm l1 l2) (hnd : (l1.map DirEntryV.name).Nodup)
    (hok : l1.all entryOkB = true) :
    generate_directory_listing path (some l1) =
      generate_directory_listing path (some l2) := by
  have hok2 : l2.all entryOkB = true := by
    rw [List.all_eq_true] at hok ⊢
    exact fun e he => hok e (hp.mem_iff.mpr he)
  have hsort : sortRows (l1.filterMap rowOf) = sortRows (l2.filterMap rowOf) :=
    sortRows_eq_of_perm (hp.filterMap rowOf)
      (List.Nodup.sublist (rowOf_names_sublist l1) hnd)
  simp only [generate_directory_listing, collectRows_eq, if_pos hok, if_pos hok2,
    Option.map_some']
  rw [hsort]

/-- Witness for C9: a concrete directory (a file, a subdirectory, and one
entry whose metadata read fails and is skipped) renders identically when the
filesystem enumerates it in reverse order. -/
theorem spec_c9_witness :
    generate_directory_listing ⟨true, [str "d"]⟩
      (some [⟨str "notes.txt", some ⟨false, 2048, some (str "2024-01-02 03:04:05")⟩⟩,
        ⟨str "photos", some ⟨true, 0, some (str "2024-01-02 03:04:06")⟩⟩,
        ⟨str "broken", none⟩]) =
    generate_directory_listing ⟨true, [str "d"]⟩
      (some [⟨str "notes.txt", some ⟨false, 2048, some (str "2024-01-02 03:04:05")⟩⟩,
        ⟨str "photos", some ⟨true, 0, some (str "2024-01-02 03:04:06")⟩⟩,
        ⟨str "broken", none⟩].reverse) :=
  spec_c9_render_deterministic ⟨true, [str "d"]⟩ _ _
    (List.reverse_perm _).symm (by decide) (by decide)

/-! ### C8: percent-decoding round-trip -/

/-- C8: a request whose target is `/a%20b` (percent-encoded space) decodes
and resolves to the same filesystem target as the literal path segment
`a b` joined to the root. -/
theorem spec_c8_percent_roundtrip :
    (extract_path (str "GET /a%20b HTTP/1.1")).map fullPathOf =
      some (PathV.join rootPathV (parsePath (str "a b"))) := by decide

/-! ### C10: names are interpolated without HTML escaping -/

/-- C10: entry and file names are interpolated verbatim into the rendered
documents, with no HTML escaping: for every name — including names holding
metacharacters such as `<` or `&` — the listing row's link text contains the
name followed directly by `</a>`, and the file-detail page contains it
unchanged in the `<title>` and in the `<h2>` heading. -/
theorem spec_c10_names_unescaped (cp : List Char) (r : RowData) (p : PathV)
    (len : Nat) (ts : List Char) :
    (∃ pre post, entryRow cp r = pre ++ (r.name ++ str "</a>") ++ post) ∧
    (∃ pre post, generate_file_info p ⟨false, len, some ts⟩ =
      some (pre ++ (str "File Info - " ++ (PathV.fileName p).getD [] ++ str "</title>") ++ post)) ∧
    (∃ pre post, generate_file_info p ⟨false, len, some ts⟩ =
      some (pre ++ (str "<h2>📄 " ++ (PathV.fileName p).getD [] ++ str "</h2>") ++ post)) := by
  refine ⟨?_, ?_, ?_⟩
  · refine ⟨str "<tr>\n                    <td><a href=\"" ++ encodedPath cp r.name
      ++ str "\">" ++ (if r.isDir then str "📁" else str "📄") ++ str " ",
      str "</td>\n                    <td>" ++ (if r.isDir then str "-" else r.size)
      ++ str "</td>\n                    <td>" ++ r.modified
      ++ str "</td>\n                </tr>", ?_⟩
    have hsplit : str "</a></td>\n                    <td>" =
        str "</a>" ++ str "</td>\n                    <td>" := by decide
    rw [entryRow, hsplit]
    simp [List.append_assoc]
  · refine ⟨str "<!DOCTYPE html>\n        <html>\n        <head>\n            <title>",
      List.drop 8 fi2 ++ (PathV.fileName p).getD [] ++ fi3 ++ formatSize len
        ++ fi4 ++ ts ++ fi5, ?_⟩
    have h1 : fi1 = str "<!DOCTYPE html>\n        <html>\n        <head>\n            <title>"
        ++ str "File Info - " := by decide
    have h2 : fi2 = str "</title>" ++ List.drop 8 fi2 := by decide
    rw [generate_file_info]
    simp only [fileInfoHtml]
    rw [h1]
    nth_rewrite 1 [h2]
    simp [List.append_assoc]
  · refine ⟨fi1 ++ (PathV.fileName p).getD [] ++ List.take 608 fi2,
      List.drop 5 fi3 ++ formatSize len ++ fi4 ++ ts ++ fi5, ?_⟩
    have h2 : fi2 = List.take 608 fi2 ++ str "<h2>📄 " := by decide
    have h3 : fi3 = str "</h2>" ++ List.drop 5 fi3 := by decide
    rw [generate_file_info]
    simp only [fileInfoHtml]
    nth_rewrite 1 [h2]
    nth_rewrite 1 [h3]
    simp [List.append_assoc]
